import Mathlib

/-!
Verification of the two Ghidra headless decompilation scripts
(`decompile_magic.py` and `decompile_pathfinding.py`) of the
FF3-Screen-Reader repository.

The scripts are straight-line Jython glue driving a host decompiler.
We give a shallow embedding: every call into the host API is resolved
by an oracle environment `Env` (each fallible host call is an
`Except String _` value or function), and the observable side effects
of a run are collected as a list of `Event`s.  Pure Python values
(strings, dicts, counters) become Lean values; the two scripts share
their helper functions token for token, so those are defined once.
-/

namespace FF3

/-- Python `str(x)` for an optional string (`str(None) = "None"`). -/
def pyStrOpt : Option String → String
  | none => "None"
  | some s => s

/-- Python `str(b)` for a boolean. -/
def pyStrBool : Bool → String
  | true => "True"
  | false => "False"

/-- Python truthiness of an optional string: `None` and `""` are falsy. -/
def strTruthy : Option String → Bool
  | none => false
  | some s => s ≠ ""

/-- A run of `n` copies of character `c`, as in Python `c * n`. -/
def repC (c : Char) (n : Nat) : String :=
  String.mk (List.replicate n c)

/-- One uppercase hexadecimal digit. -/
def hexDigit (d : Nat) : Char :=
  if d < 10 then Char.ofNat (48 + d) else Char.ofNat (55 + d)

/-- Uppercase hexadecimal rendering of a natural number, as Python's
uppercase hex formatting of an address. -/
def toHexUpper (n : Nat) : String :=
  if n < 16 then String.mk [hexDigit n]
  else toHexUpper (n / 16) ++ String.mk [hexDigit (n % 16)]
decreasing_by
  rename_i h
  exact Nat.div_lt_self (by omega) (by omega)

/-- The characters before the first `"$$"` occurrence, or `none` when
there is none. -/
def classOfAux : List Char → Option (List Char)
  | [] => none
  | '$' :: '$' :: _ => some []
  | c :: rest => (classOfAux rest).map (c :: ·)

/-- Class-name extraction used by the grouping logic of
`decompile_magic.py`: `name.split("$$")[0] if "$$" in name else "Unknown"`. -/
def className (name : String) : String :=
  match classOfAux name.data with
  | some pre => String.mk pre
  | none => "Unknown"

/-- Python string comparison `s <= t`: lexicographic on code points. -/
def strLeAux : List Char → List Char → Bool
  | [], _ => true
  | _ :: _, [] => false
  | a :: s, b :: t =>
    if a.toNat < b.toNat then true
    else if b.toNat < a.toNat then false
    else strLeAux s t

/-- Python string comparison `s <= t` on `String`. -/
def strLe (s t : String) : Bool := strLeAux s.data t.data

/-- Label cleaning of `apply_il2cpp_symbols`:
`name.replace("$$","__").replace("<","_").replace(">","_").replace(",","_")`. -/
def cleanLabel (name : String) : String :=
  ((((name.replace "$$" "__").replace "<" "_").replace ">" "_").replace "," "_")

/-- The match test of `apply_il2cpp_symbols`:
`name == target_name or name.replace(".", "$$") == target_name`. -/
def symbolMatches (name target : String) : Bool :=
  name == target || name.replace "." "$$" == target

/-- The observable non-console side effects of a run.  Console printing is
not modelled as an effect: a `print` leaves the tracked state untouched. -/
inductive Event where
  | readHeader
  | cparse
  | altParse
  | readJson
  | createLabel (addr : Nat) (label : String) (ok : Bool)
  | openDecompiler
  | decompRequest (rva : Nat) (name : String)
  | createFunction (addr : Nat)
  | decompileFunction (addr : Nat)
  | writeFile (path content : String) (ok : Bool)
  | fallbackWrite (path content : String) (ok : Bool)
  | dispose
  deriving DecidableEq, Repr

/-- The loaded Ghidra program: `getImageBase().getOffset()` and `getName()`
are plain accessors of this record. -/
structure Program where
  imageBase : Nat
  name : String
  deriving DecidableEq, Repr

/-- One entry of the `"ScriptMethod"` array of `script.json`; a missing
key (`dict.get`) is `none`. -/
structure MethodEntry where
  addr : Option Nat
  name : Option String
  deriving DecidableEq, Repr

/-- The object returned by `decompiler.decompileFunction`:
`decompileCompleted()`, `getErrorMessage()` (`none` models a null Java
string), and `getDecompiledFunction()` — `some g` models a non-null
decompiled function whose `getC()` call has outcome `g`. -/
structure DecompResult where
  completed : Bool
  errorMessage : Option String
  decompFunc : Option (Except String String)
  deriving Repr

/-- Oracle environment resolving every call into the host API.  An
`Except.error` models the call raising; plain attribute accessors
(`getDataTypeManager`, `getSymbolTable`, `getAddressFactory`,
`getImageBase`, `getName`, `getDefaultAddressSpace`) are pure and need no
oracle. -/
structure Env where
  /-- `getCurrentProgram()`: `none` models no loaded program. -/
  program : Option Program
  /-- `os.path.exists(IL2CPP_HEADER_PATH)`. -/
  headerExists : Bool
  /-- `open(IL2CPP_HEADER_PATH).read()`. -/
  headerRead : Except String String
  /-- `CParser(dtm).parse(content)`: `ok none` models the parser
  returning `None`, `ok (some ())` a non-null result. -/
  cparse : String → Except String (Option Unit)
  /-- The whole alternative `CParserUtils.parseHeaderFiles` block. -/
  altParse : Except String Unit
  /-- `os.path.exists(SCRIPT_JSON_PATH)`. -/
  scriptJsonExists : Bool
  /-- `json.load` of `script.json`: `ok none` models a document without a
  `"ScriptMethod"` key. -/
  scriptJson : Except String (Option (List MethodEntry))
  /-- `getDefaultAddressSpace().getAddress(a)` (may raise). -/
  getAddress : Nat → Except String Unit
  /-- `symbol_table.createLabel(addr, label, SourceType.IMPORTED)`. -/
  createLabel : Nat → String → Except String Unit
  /-- `getFunctionAt(addr)`: `ok true` models an existing function. -/
  getFunctionAt : Nat → Except String Bool
  /-- `createFunction(addr, n)`: `ok false` models a `None` return. -/
  createFunction : Nat → String → Except String Bool
  /-- `decompiler.decompileFunction(func, 120, monitor)` for the function
  at the given address. -/
  decompileFunction : Nat → Except String DecompResult
  /-- `codecs.open(path, 'w', 'utf-8')` + `write(content)`. -/
  writeOutput : String → String → Except String Unit
  /-- The fallback `open(path, 'w')` + `write(content)`. -/
  fallbackWrite : String → String → Except String Unit

/-- Stable insertion of an element into a sorted list (Python `sorted` on
the already-sorted tail). -/
def insertSorted (le : α → α → Bool) (a : α) : List α → List α
  | [] => [a]
  | b :: t => if le a b then a :: b :: t else b :: insertSorted le a t

/-- Stable sort, modelling Python `sorted`. -/
def sortBy (le : α → α → Bool) : List α → List α
  | [] => []
  | a :: t => insertSorted le a (sortBy le t)

namespace Magic

/-- `TARGET_FUNCTIONS_RVA` of `decompile_magic.py`, in source order. -/
def TARGET_FUNCTIONS_RVA : List (Nat × String) :=
  [ (0x685930, "AbilityContentListController$$SetDescriptionText"),
    (0x6856B0, "AbilityContentListController$$SelectContent"),
    (0x686950, "AbilityContentListController$$UpdateFocus"),
    (0x6854B0, "AbilityContentListController$$SelectContentByIndex"),
    (0x685750, "AbilityContentListController$$SetCursor"),
    (0x687190, "AbilityContentListController$$UpdateView"),
    (0x686D20, "AbilityContentListController$$UpdateOwnsAbilityList"),
    (0x685E90, "AbilityContentListController$$SetFocus"),
    (0x682800, "AbilityCommandController$$SetFocus_CommandId"),
    (0x6836C0, "AbilityCommandController$$UpdateController"),
    (0x6836D0, "AbilityCommandController$$UpdateFocus"),
    (0x6823B0, "AbilityCommandController$$SetAbilityData"),
    (0x681BA0, "AbilityCommandController$$GetCurrentAbilityCommandId"),
    (0x6821F0, "AbilityCommandController$$SelectCommandByIndex"),
    (0x682B90, "AbilityCommandController$$SetFocus_bool"),
    (0x3BBC30, "BattleAbilityInfomationContentController$$UpdateView_OwnedAbility"),
    (0x3BB980, "BattleAbilityInfomationContentController$$SetFocus"),
    (0x3BBAF0, "BattleAbilityInfomationContentController$$UpdateAbilitySkillLevel"),
    (0x3BB7C0, "BattleAbilityInfomationContentController$$Initalize"),
    (0x664350, "OwnedAbility$$get_MesIdName"),
    (0x664300, "OwnedAbility$$get_MesIdDescription"),
    (0x276F50, "OwnedAbility$$get_Ability"),
    (0x6643A0, "OwnedAbility$$get_SkillLevel"),
    (0xF54780, "Ability$$get_AbilityLv"),
    (0xF54790, "Ability$$get_TypeId"),
    (0x6BDF30, "AbilityCommandContentData$$get_Id"),
    (0x689120, "AbilityWindowController$$SelectContent"),
    (0x688450, "AbilityWindowController$$UpdateView") ]

def OUTPUT_PATH : String :=
  "D:\\Games\\Dev\\Unity\\FFPR\\ff3\\ff3-screen-reader\\docs\\scripts\\decompiled_magic.c"

/-- `sorted(TARGET_FUNCTIONS_RVA.items(), key=lambda x: x[1])`. -/
def sortedTargets : List (Nat × String) :=
  FF3.sortBy (fun a b => FF3.strLe a.2 b.2) TARGET_FUNCTIONS_RVA

end Magic

namespace Pathfinding

/-- `TARGET_FUNCTIONS_RVA` of `decompile_pathfinding.py`, in source order. -/
def TARGET_FUNCTIONS_RVA : List (Nat × String) :=
  [ (0xC51270, "MapRouteSearcher$$Search"),
    (0xC4F3D0, "MapRouteSearcher$$SearchShortestRoute"),
    (0xC50450, "MapRouteSearcher$$SearchSimple"),
    (0xC511E0, "MapRouteSearcher$$SearchSpriteEntityToCellPosition"),
    (0xC510C0, "MapRouteSearcher$$SearchSpriteEntityDirection"),
    (0xC4E9E0, "MapRouteSearcher$$EntityWorldPositionToCellPosition"),
    (0xC4EB40, "MapRouteSearcher$$MakeRouteMapWithCollision"),
    (0xC4ECC0, "MapRouteSearcher$$MakeRouteMapWithoutCollision"),
    (0xC4EDC0, "MapRouteSearcher$$SearchAroundCellWithCollision"),
    (0xC4F260, "MapRouteSearcher$$SearchAroundCellWithoutCollision"),
    (0xC52140, "MapRouteSearcher$$UpdateRouteMapCellStep"),
    (0xC4E970, "MapRouteSearcher$$CanIgnore"),
    (0x9391D0, "External.Misc$$ShowMapTitle"),
    (0x27FED0, "FieldController$$GetMapTitleID"),
    (0x3104C0, "MapModel$$GetMapName"),
    (0xA87AA0, "Map$$get_MapName"),
    (0xA8A1B0, "Map$$get_MapTitle") ]

def OUTPUT_PATH : String :=
  "D:\\Games\\Dev\\Unity\\FFPR\\ff3\\docs\\scripts\\decompiled_pathfinding.c"

/-- `sorted(TARGET_FUNCTIONS_RVA.items())`: tuples compare first by RVA,
then by name. -/
def sortedTargets : List (Nat × String) :=
  FF3.sortBy
    (fun a b => decide (a.1 < b.1) || (decide (a.1 = b.1) && FF3.strLe a.2 b.2))
    TARGET_FUNCTIONS_RVA

end Pathfinding

/-!  The three helper functions below are textually identical in
`decompile_magic.py` and `decompile_pathfinding.py`, so they are
defined once, parametrised by the environment (and, for the symbol
application, by the script's target table). -/

/-- `parse_il2cpp_header(program)`.  Returns the Python return value
together with the effect trace.  The outer `try` catches a raising file
read (returning `False`); the inner `try` catches a raising
`CParser.parse` and falls back to `CParserUtils.parseHeaderFiles`,
returning `True` on its completion and `False` if it raises too. -/
def parse_il2cpp_header (env : Env) : Bool × List Event :=
  if !env.headerExists then
    (false, [])
  else
    match env.headerRead with
    | .error _ => (false, [.readHeader])
    | .ok content =>
      match env.cparse content with
      | .ok (some _) => (true, [.readHeader, .cparse])
      | .ok none => (true, [.readHeader, .cparse])
      | .error _ =>
        match env.altParse with
        | .ok _ => (true, [.readHeader, .cparse, .altParse])
        | .error _ => (false, [.readHeader, .cparse, .altParse])

/-- Python truthiness of the `Address` field (`None` and `0` are falsy). -/
def addrTruthy : Option Nat → Bool
  | none => false
  | some a => a ≠ 0

/-- The inner `for target_rva, target_name in TARGET_FUNCTIONS_RVA.items()`
loop of `apply_il2cpp_symbols`, for one `ScriptMethod` entry with truthy
address `a` and name `n`.  Each matching target attempts
`getAddress` + `createLabel` under a `try ... except: pass`. -/
def applyTargets (env : Env) (p : Program) (a : Nat) (n : String) :
    List (Nat × String) → Nat × List Event
  | [] => (0, [])
  | t :: rest =>
    let this :=
      if symbolMatches n t.2 then
        match env.getAddress (p.imageBase + a) with
        | .error _ => ((0 : Nat), ([] : List Event))
        | .ok _ =>
          match env.createLabel (p.imageBase + a) (cleanLabel n) with
          | .ok _ => (1, [.createLabel (p.imageBase + a) (cleanLabel n) true])
          | .error _ => (0, [.createLabel (p.imageBase + a) (cleanLabel n) false])
      else ((0 : Nat), ([] : List Event))
    let restR := applyTargets env p a n rest
    (this.1 + restR.1, this.2 ++ restR.2)

/-- One `ScriptMethod` entry of the outer loop of `apply_il2cpp_symbols`:
skipped unless `Address` and `Name` are both truthy. -/
def applyMethod (env : Env) (p : Program) (targets : List (Nat × String))
    (m : MethodEntry) : Nat × List Event :=
  match m.addr, m.name with
  | some a, some n =>
    if a ≠ 0 && n ≠ "" then applyTargets env p a n targets else (0, [])
  | _, _ => (0, [])

/-- The outer `for method in data["ScriptMethod"]` loop. -/
def applyMethods (env : Env) (p : Program) (targets : List (Nat × String)) :
    List MethodEntry → Nat × List Event
  | [] => (0, [])
  | m :: rest =>
    let this := applyMethod env p targets m
    let restR := applyMethods env p targets rest
    (this.1 + restR.1, this.2 ++ restR.2)

/-- `apply_il2cpp_symbols(program)`.  Returns `(applied, targets, events)`;
the target table is threaded through unchanged because the source never
assigns to it.  Returns a count of `0` when `script.json` is missing or
`json.load` raises, and also when the document has no `"ScriptMethod"`
key. -/
def apply_il2cpp_symbols (env : Env) (p : Program)
    (targets : List (Nat × String)) : Nat × List (Nat × String) × List Event :=
  if !env.scriptJsonExists then
    (0, targets, [])
  else
    match env.scriptJson with
    | .error _ => (0, targets, [.readJson])
    | .ok none => (0, targets, [.readJson])
    | .ok (some methods) =>
      let r := applyMethods env p targets methods
      (r.1, targets, .readJson :: r.2)

/-- The decompilation part of `decompile_function_at_address`, after a
function object has been obtained at absolute address `abs`. -/
def decompPart (env : Env) (abs : Nat) :
    (Option String × Option String) × List Event :=
  match env.decompileFunction abs with
  | .error e => ((none, some ("Exception: " ++ e)), [.decompileFunction abs])
  | .ok r =>
    if r.completed then
      match r.decompFunc with
      | some (.ok c) => ((some c, none), [.decompileFunction abs])
      | some (.error e) =>
        ((none, some ("Exception: " ++ e)), [.decompileFunction abs])
      | none =>
        ((none, some "Decompilation returned no result"), [.decompileFunction abs])
    else
      match r.errorMessage with
      | some m =>
        if m ≠ "" then
          ((none, some ("Decompilation failed: " ++ m)), [.decompileFunction abs])
        else
          ((none, some "Decompilation failed (unknown error)"), [.decompileFunction abs])
      | none =>
        ((none, some "Decompilation failed (unknown error)"), [.decompileFunction abs])

/-- `decompile_function_at_address(decompiler, program, rva, name)`.
Returns the `(code, error)` pair together with the effect trace.  The
`try` covers everything from `getAddress` on; a raising host call yields
`(None, "Exception: ...")`. -/
def decompile_function_at_address (env : Env) (p : Program) (rva : Nat)
    (name : String) : (Option String × Option String) × List Event :=
  let abs := p.imageBase + rva
  match env.getAddress abs with
  | .error e => ((none, some ("Exception: " ++ e)), [])
  | .ok _ =>
    match env.getFunctionAt abs with
    | .error e => ((none, some ("Exception: " ++ e)), [])
    | .ok true => decompPart env abs
    | .ok false =>
      match env.createFunction abs (name.replace "$$" "_") with
      | .error e => ((none, some ("Exception: " ++ e)), [.createFunction abs])
      | .ok false =>
        ((none, some ("Could not create function at 0x" ++ toHexUpper abs)),
         [.createFunction abs])
      | .ok true =>
        let r := decompPart env abs
        (r.1, .createFunction abs :: r.2)

/-- The mutable locals of the decompilation loop of `run()`:
`current_class`, the `results` list, the two counters, and the effect
trace accumulated so far. -/
structure LoopState where
  currentClass : String
  lines : List String
  success : Nat
  fail : Nat
  events : List Event
  deriving Repr

/-- The four `results.append` lines emitted when the class changes
(`decompile_magic.py` only). -/
def classHeaderLines (cls : String) : List String :=
  ["", "/" ++ repC '=' 68 ++ "/", "/* " ++ cls, " " ++ repC '=' 67 ++ "/"]

/-- The seven header lines of one function block. -/
def blockHeaderLines (p : Program) (rva : Nat) (name : String) : List String :=
  ["", "/" ++ repC '*' 68 ++ "/", "/* " ++ name,
   " * RVA: 0x" ++ toHexUpper rva,
   " * Address: 0x" ++ toHexUpper (p.imageBase + rva),
   " " ++ repC '*' 67 ++ "/", ""]

/-- The payload line of one block: the decompiled C code when `code` is
truthy, the failure comment otherwise. -/
def payloadLine (code err : Option String) : String :=
  if strTruthy code then code.getD ""
  else "/* DECOMPILATION FAILED: " ++ pyStrOpt err ++ " */"

/-- One iteration of the decompilation loop of `decompile_magic.py`:
class grouping, the `decompile_function_at_address` call, the block
header, the payload, and the counter update. -/
def magicStep (env : Env) (p : Program) (st : LoopState) (e : Nat × String) :
    LoopState :=
  let cls := className e.2
  let st1 :=
    if cls ≠ st.currentClass then
      { st with currentClass := cls, lines := st.lines ++ classHeaderLines cls }
    else st
  let r := decompile_function_at_address env p e.1 e.2
  let code := r.1.1
  let err := r.1.2
  let st2 := { st1 with
    events := st1.events ++ [Event.decompRequest e.1 e.2] ++ r.2,
    lines := st1.lines ++ blockHeaderLines p e.1 e.2 ++ [payloadLine code err] }
  if strTruthy code then { st2 with success := st2.success + 1 }
  else { st2 with fail := st2.fail + 1 }

/-- One iteration of the decompilation loop of `decompile_pathfinding.py`:
as `magicStep` but with no class grouping. -/
def pathStep (env : Env) (p : Program) (st : LoopState) (e : Nat × String) :
    LoopState :=
  let r := decompile_function_at_address env p e.1 e.2
  let code := r.1.1
  let err := r.1.2
  let st2 := { st with
    events := st.events ++ [Event.decompRequest e.1 e.2] ++ r.2,
    lines := st.lines ++ blockHeaderLines p e.1 e.2 ++ [payloadLine code err] }
  if strTruthy code then { st2 with success := st2.success + 1 }
  else { st2 with fail := st2.fail + 1 }

/-- The output-writing tail of `run()`: the primary `codecs.open` write,
then on a raise the plain `open` fallback. -/
def writeEvents (env : Env) (path content : String) : List Event :=
  match env.writeOutput path content with
  | .ok _ => [.writeFile path content true]
  | .error _ =>
    .writeFile path content false ::
      match env.fallbackWrite path content with
      | .ok _ => [.fallbackWrite path content true]
      | .error _ => [.fallbackWrite path content false]

/-- Everything `run()` leaves behind when a program is loaded. -/
structure RunData where
  typesParsed : Bool
  appliedCount : Nat
  resultsLines : List String
  successCount : Nat
  failCount : Nat
  targetsFinal : List (Nat × String)
  writtenContent : String
  deriving Repr

namespace Magic

/-- The 16 preamble lines of the magic report. -/
def preamble (p : Program) (typesParsed : Bool) : List String :=
  ["/*",
   " * FF3 Decompiled Functions - Magic/Ability Menu",
   " * Generated by Ghidra headless analysis",
   " * Program: " ++ p.name,
   " * Image Base: 0x" ++ toHexUpper p.imageBase,
   " * IL2CPP types applied: " ++ pyStrBool typesParsed,
   " *",
   " * Purpose: Understanding magic menu data flow for screen reader accessibility",
   " *",
   " * Key classes:",
   " *   - AbilityContentListController: Main spell list controller",
   " *   - AbilityCommandController: Command menu (Use/Remove/Exchange/Memorize)",
   " *   - BattleAbilityInfomationContentController: Individual spell item",
   " *   - OwnedAbility: Spell data wrapper",
   " */",
   ""]

/-- `run()` of `decompile_magic.py`.  Returns `none` (and an empty effect
trace) when no program is loaded, otherwise the final state and the full
effect trace. -/
def run (env : Env) : Option RunData × List Event :=
  match env.program with
  | none => (none, [])
  | some p =>
    let targets0 := TARGET_FUNCTIONS_RVA
    let parseR := FF3.parse_il2cpp_header env
    let applyR := FF3.apply_il2cpp_symbols env p targets0
    let final := List.foldl (magicStep env p)
      { currentClass := "", lines := preamble p parseR.1,
        success := 0, fail := 0, events := [] }
      (FF3.sortBy (fun a b => FF3.strLe a.2 b.2) applyR.2.1)
    let content := String.intercalate "\n" final.lines
    (some { typesParsed := parseR.1, appliedCount := applyR.1,
            resultsLines := final.lines, successCount := final.success,
            failCount := final.fail, targetsFinal := applyR.2.1,
            writtenContent := content },
     parseR.2 ++ applyR.2.2 ++ [.openDecompiler] ++ final.events ++
       writeEvents env OUTPUT_PATH content ++ [.dispose])

end Magic

namespace Pathfinding

/-- The 8 preamble lines of the pathfinding report. -/
def preamble (p : Program) (typesParsed : Bool) : List String :=
  ["/*",
   " * FF3 Decompiled Functions - Pathfinding & Map Names",
   " * Generated by Ghidra headless analysis",
   " * Program: " ++ p.name,
   " * Image Base: 0x" ++ toHexUpper p.imageBase,
   " * IL2CPP types applied: " ++ pyStrBool typesParsed,
   " */",
   ""]

/-- `run()` of `decompile_pathfinding.py`. -/
def run (env : Env) : Option RunData × List Event :=
  match env.program with
  | none => (none, [])
  | some p =>
    let targets0 := TARGET_FUNCTIONS_RVA
    let parseR := FF3.parse_il2cpp_header env
    let applyR := FF3.apply_il2cpp_symbols env p targets0
    let final := List.foldl (pathStep env p)
      { currentClass := "", lines := preamble p parseR.1,
        success := 0, fail := 0, events := [] }
      (FF3.sortBy
        (fun a b => decide (a.1 < b.1) || (decide (a.1 = b.1) && FF3.strLe a.2 b.2))
        applyR.2.1)
    let content := String.intercalate "\n" final.lines
    (some { typesParsed := parseR.1, appliedCount := applyR.1,
            resultsLines := final.lines, successCount := final.success,
            failCount := final.fail, targetsFinal := applyR.2.1,
            writtenContent := content },
     parseR.2 ++ applyR.2.2 ++ [.openDecompiler] ++ final.events ++
       writeEvents env OUTPUT_PATH content ++ [.dispose])

end Pathfinding

/-!  Specification-side views used to state the claims. -/

/-- The report block of one target entry, as the spec describes it:
header comment lines naming the function, its RVA and its absolute
address, then the decompiled C code on success or the failure comment
otherwise. -/
def entryBlock (env : Env) (p : Program) (e : Nat × String) : List String :=
  blockHeaderLines p e.1 e.2 ++
    [payloadLine (decompile_function_at_address env p e.1 e.2).1.1
                 (decompile_function_at_address env p e.1 e.2).1.2]

/-- The block sequence of the magic report: entry blocks in order, a
class-header block inserted whenever the class changes. -/
def magicBlocks (env : Env) (p : Program) : String → List (Nat × String) → List String
  | _, [] => []
  | cc, e :: rest =>
    (if className e.2 ≠ cc then classHeaderLines (className e.2) else []) ++
      entryBlock env p e ++ magicBlocks env p (className e.2) rest

/-- The block sequence of the pathfinding report: one entry block per
target, in order. -/
def pathBlocks (env : Env) (p : Program) (l : List (Nat × String)) : List String :=
  l.flatMap (entryBlock env p)

/-- The loop's effect trace: one decompilation request per entry, each
followed by the host calls it triggers. -/
def loopEvents (env : Env) (p : Program) (l : List (Nat × String)) : List Event :=
  l.flatMap fun e =>
    Event.decompRequest e.1 e.2 :: (decompile_function_at_address env p e.1 e.2).2

/-- Collapse adjacent equal elements; a sequence is grouped (equal
elements contiguous) exactly when the collapsed sequence has no
duplicates. -/
def collapseAdj : List String → List String
  | [] => []
  | [a] => [a]
  | a :: b :: t =>
    if a = b then collapseAdj (b :: t) else a :: collapseAdj (b :: t)

/-- Events of the type-parsing phase. -/
def isParseEvt : Event → Bool
  | .readHeader => true
  | .cparse => true
  | .altParse => true
  | _ => false

/-- Events of the symbol-application phase. -/
def isSymbolEvt : Event → Bool
  | .readJson => true
  | .createLabel _ _ _ => true
  | _ => false

/-- Events of the decompilation loop. -/
def isDecompEvt : Event → Bool
  | .decompRequest _ _ => true
  | .createFunction _ => true
  | .decompileFunction _ => true
  | _ => false

/-- Events of the output-writing phase. -/
def isWriteEvt : Event → Bool
  | .writeFile _ _ _ => true
  | .fallbackWrite _ _ _ => true
  | _ => false

/-- A write of the output file that completed without raising. -/
def isOkWrite : Event → Bool
  | .writeFile _ _ ok => ok
  | .fallbackWrite _ _ ok => ok
  | _ => false

/-- A successful `createLabel` call. -/
def isOkLabel : Event → Bool
  | .createLabel _ _ ok => ok
  | _ => false

/-- Extract a decompilation request from an event. -/
def requestOf : Event → Option (Nat × String)
  | .decompRequest rva name => some (rva, name)
  | _ => none

/-- Truth of "`decompile_function_at_address` succeeds" as the spec words
it: the decompiler reports completion and yields a decompiled function
(and no host call on the way there raises). -/
def dfaReportsSuccess (env : Env) (p : Program) (rva : Nat) (name : String) : Bool :=
  let abs := p.imageBase + rva
  (match env.getAddress abs with | .ok _ => true | .error _ => false) &&
  (match env.getFunctionAt abs with
   | .ok true => true
   | .ok false =>
     (match env.createFunction abs (name.replace "$$" "_") with
      | .ok true => true | _ => false)
   | .error _ => false) &&
  (match env.decompileFunction abs with
   | .ok r =>
     r.completed &&
       (match r.decompFunc with | some (.ok _) => true | _ => false)
   | .error _ => false)

/-- Success test of one loop iteration: the `(code, error)` pair carries a
truthy code string. -/
def entrySucceeds (env : Env) (p : Program) (e : Nat × String) : Bool :=
  strTruthy (decompile_function_at_address env p e.1 e.2).1.1

/-- Computable duplicate-freedom check. -/
def nodupB [BEq α] : List α → Bool
  | [] => true
  | a :: t => !(t.contains a) && nodupB t

/-- A concrete oracle: no program loaded, no input files present, every
host call succeeding. -/
def envNone : Env :=
  { program := none
    headerExists := false
    headerRead := Except.error "io"
    cparse := fun _ => Except.ok none
    altParse := Except.ok ()
    scriptJsonExists := false
    scriptJson := Except.ok none
    getAddress := fun _ => Except.ok ()
    createLabel := fun _ _ => Except.ok ()
    getFunctionAt := fun _ => Except.ok true
    createFunction := fun _ _ => Except.ok true
    decompileFunction := fun _ =>
      Except.ok { completed := true, errorMessage := none,
                  decompFunc := some (Except.ok "int f(void);") }
    writeOutput := fun _ _ => Except.ok ()
    fallbackWrite := fun _ _ => Except.ok () }

/-- A concrete loaded program. -/
def prog0 : Program := { imageBase := 0x180000000, name := "FF3.exe" }

/-- `envNone` with a program loaded. -/
def envLoaded : Env := { envNone with program := some prog0 }

/-- `envNone` with the IL2CPP header present and parsing cleanly. -/
def envParsed : Env :=
  { envNone with headerExists := true, headerRead := Except.ok "typedef int t;" }

theorem nodupB_nodup [BEq α] [LawfulBEq α] :
    ∀ l : List α, nodupB l = true → l.Nodup := by
  intro l
  induction l with
  | nil => intro _; exact List.nodup_nil
  | cons a t ih =>
    intro h
    simp only [nodupB, Bool.and_eq_true, Bool.not_eq_true'] at h
    refine List.nodup_cons.2 ⟨?_, ih h.2⟩
    intro hm
    have hc : t.contains a = true := List.elem_eq_true_of_mem hm
    rw [h.1] at hc
    exact Bool.false_ne_true hc

theorem insertSorted_perm (le : α → α → Bool) (a : α) :
    ∀ l : List α, (insertSorted le a l).Perm (a :: l) := by
  intro l
  induction l with
  | nil => simp [insertSorted]
  | cons b t ih =>
    by_cases h : le a b = true
    · simp [insertSorted, h]
    · simp only [insertSorted, h, if_false]
      exact (ih.cons b).trans (List.Perm.swap a b t)

theorem sortBy_perm (le : α → α → Bool) :
    ∀ l : List α, (sortBy le l).Perm l := by
  intro l
  induction l with
  | nil => simp [sortBy]
  | cons a t ih =>
    exact (insertSorted_perm le a (sortBy le t)).trans (ih.cons a)

/-- Every host call `decompile_function_at_address` makes targets the one
absolute address `image_base + rva`. -/
theorem dfa_events (env : Env) (p : Program) (rva : Nat) (name : String) :
    ∀ x ∈ (decompile_function_at_address env p rva name).2,
      x = Event.createFunction (p.imageBase + rva) ∨
      x = Event.decompileFunction (p.imageBase + rva) := by
  intro x hx
  unfold decompile_function_at_address decompPart at hx
  dsimp only at hx
  repeat' split at hx
  all_goals simp_all

/-- No event of `decompile_function_at_address` is a decompilation
request. -/
theorem dfa_requestOf (env : Env) (p : Program) (rva : Nat) (name : String) :
    ∀ x ∈ (decompile_function_at_address env p rva name).2,
      requestOf x = none := by
  intro x hx
  rcases dfa_events env p rva name x hx with h | h <;> subst h <;> rfl

/-- Every event of the decompilation part of the loop is a loop event. -/
theorem dfa_isDecompEvt (env : Env) (p : Program) (rva : Nat) (name : String) :
    ∀ x ∈ (decompile_function_at_address env p rva name).2,
      isDecompEvt x = true := by
  intro x hx
  rcases dfa_events env p rva name x hx with h | h <;> subst h <;> rfl

/-- The type-parsing phase emits only parse events. -/
theorem parse_isParseEvt (env : Env) :
    ∀ x ∈ (parse_il2cpp_header env).2, isParseEvt x = true := by
  intro x hx
  unfold parse_il2cpp_header at hx
  repeat' split at hx
  all_goals try simp_all
  all_goals try casesm* _ ∨ _
  all_goals subst_vars
  all_goals rfl

/-- The symbol-application phase returns its target table unchanged. -/
theorem apply_targets_id (env : Env) (p : Program) (ts : List (Nat × String)) :
    (apply_il2cpp_symbols env p ts).2.1 = ts := by
  unfold apply_il2cpp_symbols
  repeat' split
  all_goals rfl

/-- Characterisation of the events of the innermost target loop of
`apply_il2cpp_symbols`: each is a `createLabel` at `image_base + Address`
named by `cleanLabel`, and triggered by a matching target. -/
theorem applyTargets_events (env : Env) (p : Program) (a : Nat) (n : String) :
    ∀ ts : List (Nat × String), ∀ x ∈ (applyTargets env p a n ts).2,
      (∃ ok, x = Event.createLabel (p.imageBase + a) (cleanLabel n) ok) ∧
      ∃ t ∈ ts, symbolMatches n t.2 = true := by
  intro ts
  induction ts with
  | nil => intro x hx; simp [applyTargets] at hx
  | cons t rest ih =>
    intro x hx
    unfold applyTargets at hx
    dsimp only at hx
    rw [List.mem_append] at hx
    rcases hx with hx | hx
    · constructor
      · repeat' split at hx
        all_goals simp_all
      · refine ⟨t, List.mem_cons_self t rest, ?_⟩
        by_cases hm : symbolMatches n t.2 = true
        · exact hm
        · simp [hm] at hx
    · obtain ⟨h1, t', ht', h2⟩ := ih x hx
      exact ⟨h1, t', List.mem_cons_of_mem t ht', h2⟩

/-- The returned count of the innermost target loop equals the number of
successful `createLabel` events it emits. -/
theorem applyTargets_count (env : Env) (p : Program) (a : Nat) (n : String) :
    ∀ ts : List (Nat × String),
      (applyTargets env p a n ts).1 =
        (applyTargets env p a n ts).2.countP isOkLabel := by
  intro ts
  induction ts with
  | nil => simp [applyTargets]
  | cons t rest ih =>
    unfold applyTargets
    dsimp only
    rw [List.countP_append, ← ih]
    congr 1
    repeat' split
    all_goals simp [isOkLabel, List.countP, List.countP.go]

/-- Event characterisation for one `ScriptMethod` entry: labels are only
created when both fields are truthy and the name matches a target. -/
theorem applyMethod_events (env : Env) (p : Program) (ts : List (Nat × String))
    (m : MethodEntry) :
    ∀ x ∈ (applyMethod env p ts m).2,
      ∃ a n, m.addr = some a ∧ a ≠ 0 ∧ m.name = some n ∧ n ≠ "" ∧
        (∃ ok, x = Event.createLabel (p.imageBase + a) (cleanLabel n) ok) ∧
        ∃ t ∈ ts, symbolMatches n t.2 = true := by
  intro x hx
  unfold applyMethod at hx
  split at hx
  case h_2 => simp at hx
  case h_1 a n ha hn =>
    split at hx
    case isFalse => simp at hx
    case isTrue htr =>
      simp only [Bool.and_eq_true, decide_eq_true_eq] at htr
      obtain ⟨h1, h2⟩ := applyTargets_events env p a n ts x hx
      exact ⟨a, n, ha, htr.1, hn, htr.2, h1, h2⟩

/-- Count characterisation for one `ScriptMethod` entry. -/
theorem applyMethod_count (env : Env) (p : Program) (ts : List (Nat × String))
    (m : MethodEntry) :
    (applyMethod env p ts m).1 = (applyMethod env p ts m).2.countP isOkLabel := by
  unfold applyMethod
  repeat' split
  all_goals simp [applyTargets_count]

/-- Event characterisation for the whole `ScriptMethod` loop. -/
theorem applyMethods_events (env : Env) (p : Program) (ts : List (Nat × String)) :
    ∀ ms : List MethodEntry, ∀ x ∈ (applyMethods env p ts ms).2,
      ∃ m ∈ ms, ∃ a n, m.addr = some a ∧ a ≠ 0 ∧ m.name = some n ∧ n ≠ "" ∧
        (∃ ok, x = Event.createLabel (p.imageBase + a) (cleanLabel n) ok) ∧
        ∃ t ∈ ts, symbolMatches n t.2 = true := by
  intro ms
  induction ms with
  | nil => intro x hx; simp [applyMethods] at hx
  | cons m rest ih =>
    intro x hx
    unfold applyMethods at hx
    dsimp only at hx
    rw [List.mem_append] at hx
    rcases hx with hx | hx
    · exact ⟨m, List.mem_cons_self m rest, applyMethod_events env p ts m x hx⟩
    · obtain ⟨m', hm', h⟩ := ih x hx
      exact ⟨m', List.mem_cons_of_mem m hm', h⟩

/-- Count characterisation for the whole `ScriptMethod` loop. -/
theorem applyMethods_count (env : Env) (p : Program) (ts : List (Nat × String)) :
    ∀ ms : List MethodEntry,
      (applyMethods env p ts ms).1 =
        (applyMethods env p ts ms).2.countP isOkLabel := by
  intro ms
  induction ms with
  | nil => simp [applyMethods]
  | cons m rest ih =>
    unfold applyMethods
    dsimp only
    rw [List.countP_append, ← ih, applyMethod_count]

/-- The symbol-application phase emits only symbol events. -/
theorem apply_isSymbolEvt (env : Env) (p : Program) (ts : List (Nat × String)) :
    ∀ x ∈ (apply_il2cpp_symbols env p ts).2.2, isSymbolEvt x = true := by
  intro x hx
  unfold apply_il2cpp_symbols at hx
  repeat' split at hx
  · simp at hx
  · simp at hx; subst hx; rfl
  · simp at hx; subst hx; rfl
  · rw [List.mem_cons] at hx
    rcases hx with rfl | hx
    · rfl
    · obtain ⟨_, _, _, n, _, _, _, _, ⟨ok, rfl⟩, _⟩ :=
        applyMethods_events env p ts _ x hx
      rfl

/-- One magic loop iteration, written as a record update. -/
theorem magicStep_eq (env : Env) (p : Program) (st : LoopState) (e : Nat × String) :
    magicStep env p st e =
      { currentClass := className e.2,
        lines := st.lines ++
          (if className e.2 ≠ st.currentClass then classHeaderLines (className e.2) else []) ++
          entryBlock env p e,
        success := st.success + (if entrySucceeds env p e then 1 else 0),
        fail := st.fail + (if entrySucceeds env p e then 0 else 1),
        events := st.events ++ Event.decompRequest e.1 e.2 ::
          (decompile_function_at_address env p e.1 e.2).2 } := by
  unfold magicStep entryBlock entrySucceeds
  dsimp only
  by_cases h1 : className e.2 ≠ st.currentClass <;>
    by_cases h2 : strTruthy (decompile_function_at_address env p e.1 e.2).1.1 = true <;>
      simp_all [List.append_assoc] <;> simp [not_ne_iff.mp h1]

/-- One pathfinding loop iteration, written as a record update. -/
theorem pathStep_eq (env : Env) (p : Program) (st : LoopState) (e : Nat × String) :
    pathStep env p st e =
      { currentClass := st.currentClass,
        lines := st.lines ++ entryBlock env p e,
        success := st.success + (if entrySucceeds env p e then 1 else 0),
        fail := st.fail + (if entrySucceeds env p e then 0 else 1),
        events := st.events ++ Event.decompRequest e.1 e.2 ::
          (decompile_function_at_address env p e.1 e.2).2 } := by
  unfold pathStep entryBlock entrySucceeds
  dsimp only
  by_cases h2 : strTruthy (decompile_function_at_address env p e.1 e.2).1.1 = true <;>
    simp_all [List.append_assoc]

/-- Full characterisation of the magic decompilation loop. -/
theorem magic_foldl (env : Env) (p : Program) :
    ∀ (l : List (Nat × String)) (st : LoopState),
      (List.foldl (magicStep env p) st l).lines =
        st.lines ++ magicBlocks env p st.currentClass l ∧
      (List.foldl (magicStep env p) st l).events =
        st.events ++ loopEvents env p l ∧
      (List.foldl (magicStep env p) st l).success =
        st.success + l.countP (entrySucceeds env p) ∧
      (List.foldl (magicStep env p) st l).fail =
        st.fail + l.countP (fun e => !entrySucceeds env p e) := by
  intro l
  induction l with
  | nil => intro st; simp [magicBlocks, loopEvents]
  | cons e rest ih =>
    intro st
    rw [List.foldl_cons, magicStep_eq]
    obtain ⟨h1, h2, h3, h4⟩ := ih _
    refine ⟨?_, ?_, ?_, ?_⟩
    · rw [h1]
      simp only [magicBlocks, List.append_assoc]
    · rw [h2]
      simp [loopEvents, List.append_assoc]
    · rw [h3, List.countP_cons]
      by_cases h : entrySucceeds env p e = true <;> simp [h] <;> omega
    · rw [h4, List.countP_cons]
      by_cases h : entrySucceeds env p e = true <;> simp [h] <;> omega

/-- Full characterisation of the pathfinding decompilation loop. -/
theorem path_foldl (env : Env) (p : Program) :
    ∀ (l : List (Nat × String)) (st : LoopState),
      (List.foldl (pathStep env p) st l).lines =
        st.lines ++ pathBlocks env p l ∧
      (List.foldl (pathStep env p) st l).events =
        st.events ++ loopEvents env p l ∧
      (List.foldl (pathStep env p) st l).success =
        st.success + l.countP (entrySucceeds env p) ∧
      (List.foldl (pathStep env p) st l).fail =
        st.fail + l.countP (fun e => !entrySucceeds env p e) := by
  intro l
  induction l with
  | nil => intro st; simp [pathBlocks, loopEvents]
  | cons e rest ih =>
    intro st
    rw [List.foldl_cons, pathStep_eq]
    obtain ⟨h1, h2, h3, h4⟩ := ih _
    refine ⟨?_, ?_, ?_, ?_⟩
    · rw [h1]
      simp [pathBlocks, List.append_assoc]
    · rw [h2]
      simp [loopEvents, List.append_assoc]
    · rw [h3, List.countP_cons]
      by_cases h : entrySucceeds env p e = true <;> simp [h] <;> omega
    · rw [h4, List.countP_cons]
      by_cases h : entrySucceeds env p e = true <;> simp [h] <;> omega

/-- The events of the decompilation loop are exactly one request per
entry followed by that entry's host calls; extracting the requests
recovers the entry list. -/
theorem loopEvents_requests (env : Env) (p : Program) :
    ∀ l : List (Nat × String),
      (loopEvents env p l).filterMap requestOf = l := by
  intro l
  induction l with
  | nil => simp [loopEvents]
  | cons e rest ih =>
    simp only [loopEvents, List.flatMap_cons, List.filterMap_append]
    rw [List.filterMap_cons]
    have hnone : (decompile_function_at_address env p e.1 e.2).2.filterMap requestOf = [] :=
      List.filterMap_eq_nil.2 (dfa_requestOf env p e.1 e.2)
    simp only [requestOf, hnone]
    simpa [loopEvents] using ih

/-- Loop events are loop-phase events only. -/
theorem loopEvents_kind (env : Env) (p : Program) :
    ∀ l : List (Nat × String), ∀ x ∈ loopEvents env p l, isDecompEvt x = true := by
  intro l
  induction l with
  | nil => intro x hx; simp [loopEvents] at hx
  | cons e rest ih =>
    intro x hx
    simp only [loopEvents, List.flatMap_cons, List.mem_append, List.mem_cons] at hx
    rcases hx with (rfl | hx) | hx
    · rfl
    · exact dfa_isDecompEvt env p e.1 e.2 x hx
    · exact ih x (by simpa [loopEvents] using hx)

/-- Every `decompileFunction` call of the loop targets `image_base + rva`
of some processed entry. -/
theorem loopEvents_decompAddr (env : Env) (p : Program) :
    ∀ l : List (Nat × String), ∀ a,
      Event.decompileFunction a ∈ loopEvents env p l →
      ∃ t ∈ l, a = p.imageBase + t.1 := by
  intro l
  induction l with
  | nil => intro a ha; simp [loopEvents] at ha
  | cons e rest ih =>
    intro a ha
    simp only [loopEvents, List.flatMap_cons, List.mem_append, List.mem_cons] at ha
    rcases ha with (h | h) | h
    · exact absurd h (by simp)
    · rcases dfa_events env p e.1 e.2 _ h with h' | h'
      · exact absurd h' (by simp)
      · exact ⟨e, List.mem_cons_self e rest, by injection h'⟩
    · obtain ⟨t, ht, h'⟩ := ih a (by simpa [loopEvents] using h)
      exact ⟨t, List.mem_cons_of_mem e ht, h'⟩

/-- The write phase emits only write events, at most one of which
completes. -/
theorem writeEvents_kind (env : Env) (path content : String) :
    (∀ x ∈ writeEvents env path content, isWriteEvt x = true) ∧
      (writeEvents env path content).countP isOkWrite ≤ 1 := by
  unfold writeEvents
  repeat' split
  all_goals constructor
  all_goals simp [isWriteEvt, isOkWrite, List.countP, List.countP.go]
  all_goals intro x hx
  all_goals rcases hx with rfl | rfl <;> rfl

/-- Closed-form characterisation of `run()` of `decompile_magic.py` when a
program is loaded. -/
theorem magic_run_char (env : Env) (p : Program) (h : env.program = some p) :
    Magic.run env =
      (some { typesParsed := (parse_il2cpp_header env).1,
              appliedCount := (apply_il2cpp_symbols env p Magic.TARGET_FUNCTIONS_RVA).1,
              resultsLines := Magic.preamble p (parse_il2cpp_header env).1 ++
                magicBlocks env p "" Magic.sortedTargets,
              successCount := Magic.sortedTargets.countP (entrySucceeds env p),
              failCount := Magic.sortedTargets.countP (fun e => !entrySucceeds env p e),
              targetsFinal := Magic.TARGET_FUNCTIONS_RVA,
              writtenContent := String.intercalate "\n"
                (Magic.preamble p (parse_il2cpp_header env).1 ++
                  magicBlocks env p "" Magic.sortedTargets) },
       (parse_il2cpp_header env).2 ++
         (apply_il2cpp_symbols env p Magic.TARGET_FUNCTIONS_RVA).2.2 ++
         [Event.openDecompiler] ++ loopEvents env p Magic.sortedTargets ++
         writeEvents env Magic.OUTPUT_PATH (String.intercalate "\n"
           (Magic.preamble p (parse_il2cpp_header env).1 ++
             magicBlocks env p "" Magic.sortedTargets)) ++ [Event.dispose]) := by
  have hts := apply_targets_id env p Magic.TARGET_FUNCTIONS_RVA
  obtain ⟨hl, he, hs, hf⟩ := magic_foldl env p Magic.sortedTargets
    { currentClass := "", lines := Magic.preamble p (parse_il2cpp_header env).1,
      success := 0, fail := 0, events := [] }
  simp only [Magic.run, h, hts]
  rw [show sortBy (fun a b => strLe a.2 b.2) Magic.TARGET_FUNCTIONS_RVA =
        Magic.sortedTargets from rfl]
  rw [Prod.mk.injEq, Option.some.injEq, RunData.mk.injEq]
  refine ⟨⟨rfl, rfl, ?_, ?_, ?_, rfl, ?_⟩, ?_⟩
  · simpa using hl
  · simpa using hs
  · simpa using hf
  · rw [show (List.foldl (magicStep env p)
        { currentClass := "", lines := Magic.preamble p (parse_il2cpp_header env).1,
          success := 0, fail := 0, events := [] } Magic.sortedTargets).lines =
        Magic.preamble p (parse_il2cpp_header env).1 ++
          magicBlocks env p "" Magic.sortedTargets from by simpa using hl]
  · rw [show (List.foldl (magicStep env p)
        { currentClass := "", lines := Magic.preamble p (parse_il2cpp_header env).1,
          success := 0, fail := 0, events := [] } Magic.sortedTargets).lines =
        Magic.preamble p (parse_il2cpp_header env).1 ++
          magicBlocks env p "" Magic.sortedTargets from by simpa using hl,
      show (List.foldl (magicStep env p)
        { currentClass := "", lines := Magic.preamble p (parse_il2cpp_header env).1,
          success := 0, fail := 0, events := [] } Magic.sortedTargets).events =
        loopEvents env p Magic.sortedTargets from by simpa using he]

/-- Closed-form characterisation of `run()` of `decompile_pathfinding.py`
when a program is loaded. -/
theorem path_run_char (env : Env) (p : Program) (h : env.program = some p) :
    Pathfinding.run env =
      (some { typesParsed := (parse_il2cpp_header env).1,
              appliedCount := (apply_il2cpp_symbols env p Pathfinding.TARGET_FUNCTIONS_RVA).1,
              resultsLines := Pathfinding.preamble p (parse_il2cpp_header env).1 ++
                pathBlocks env p Pathfinding.sortedTargets,
              successCount := Pathfinding.sortedTargets.countP (entrySucceeds env p),
              failCount := Pathfinding.sortedTargets.countP (fun e => !entrySucceeds env p e),
              targetsFinal := Pathfinding.TARGET_FUNCTIONS_RVA,
              writtenContent := String.intercalate "\n"
                (Pathfinding.preamble p (parse_il2cpp_header env).1 ++
                  pathBlocks env p Pathfinding.sortedTargets) },
       (parse_il2cpp_header env).2 ++
         (apply_il2cpp_symbols env p Pathfinding.TARGET_FUNCTIONS_RVA).2.2 ++
         [Event.openDecompiler] ++ loopEvents env p Pathfinding.sortedTargets ++
         writeEvents env Pathfinding.OUTPUT_PATH (String.intercalate "\n"
           (Pathfinding.preamble p (parse_il2cpp_header env).1 ++
             pathBlocks env p Pathfinding.sortedTargets)) ++ [Event.dispose]) := by
  have hts := apply_targets_id env p Pathfinding.TARGET_FUNCTIONS_RVA
  obtain ⟨hl, he, hs, hf⟩ := path_foldl env p Pathfinding.sortedTargets
    { currentClass := "", lines := Pathfinding.preamble p (parse_il2cpp_header env).1,
      success := 0, fail := 0, events := [] }
  simp only [Pathfinding.run, h, hts]
  rw [show sortBy
        (fun a b => decide (a.1 < b.1) || (decide (a.1 = b.1) && strLe a.2 b.2))
        Pathfinding.TARGET_FUNCTIONS_RVA = Pathfinding.sortedTargets from rfl]
  rw [Prod.mk.injEq, Option.some.injEq, RunData.mk.injEq]
  refine ⟨⟨rfl, rfl, ?_, ?_, ?_, rfl, ?_⟩, ?_⟩
  · simpa using hl
  · simpa using hs
  · simpa using hf
  · rw [show (List.foldl (pathStep env p)
        { currentClass := "", lines := Pathfinding.preamble p (parse_il2cpp_header env).1,
          success := 0, fail := 0, events := [] } Pathfinding.sortedTargets).lines =
        Pathfinding.preamble p (parse_il2cpp_header env).1 ++
          pathBlocks env p Pathfinding.sortedTargets from by simpa using hl]
  · rw [show (List.foldl (pathStep env p)
        { currentClass := "", lines := Pathfinding.preamble p (parse_il2cpp_header env).1,
          success := 0, fail := 0, events := [] } Pathfinding.sortedTargets).lines =
        Pathfinding.preamble p (parse_il2cpp_header env).1 ++
          pathBlocks env p Pathfinding.sortedTargets from by simpa using hl,
      show (List.foldl (pathStep env p)
        { currentClass := "", lines := Pathfinding.preamble p (parse_il2cpp_header env).1,
          success := 0, fail := 0, events := [] } Pathfinding.sortedTargets).events =
        loopEvents env p Pathfinding.sortedTargets from by simpa using he]

/-- Splitting a list's length by a predicate. -/
theorem countP_add_countP_not (p : α → Bool) :
    ∀ l : List α, l.countP p + l.countP (fun a => !p a) = l.length := by
  intro l
  induction l with
  | nil => simp
  | cons a t ih =>
    rw [List.countP_cons, List.countP_cons]
    by_cases h : p a = true <;> simp [h] <;> omega

/-- Parse events are not decompilation requests. -/
theorem requestOf_none_of_parse (x : Event) (h : isParseEvt x = true) :
    requestOf x = none := by
  cases x <;> simp_all [isParseEvt, requestOf]

/-- Symbol events are not decompilation requests. -/
theorem requestOf_none_of_symbol (x : Event) (h : isSymbolEvt x = true) :
    requestOf x = none := by
  cases x <;> simp_all [isSymbolEvt, requestOf]

/-- Write events are not decompilation requests. -/
theorem requestOf_none_of_write (x : Event) (h : isWriteEvt x = true) :
    requestOf x = none := by
  cases x <;> simp_all [isWriteEvt, requestOf]

/-- The write phase always attempts the primary write of the given
content. -/
theorem writeEvents_mem (env : Env) (path content : String) :
    ∃ ok, Event.writeFile path content ok ∈ writeEvents env path content := by
  unfold writeEvents
  split
  · exact ⟨true, List.mem_singleton.2 rfl⟩
  · exact ⟨false, List.mem_cons_self _ _⟩

/-- C4: `decompile_function_at_address` is total and never propagates an
exception: it returns `(code, None)` exactly when the decompiler reports
completion and yields a decompiled function (no host call raising on the
way), and `(None, error message)` in every other case. -/
theorem claim_C4 (env : Env) (p : Program) (rva : Nat) (name : String) :
    ((∃ c, (decompile_function_at_address env p rva name).1 = (some c, none)) ∨
      ∃ m, (decompile_function_at_address env p rva name).1 = (none, some m)) ∧
    ((∃ c, (decompile_function_at_address env p rva name).1 = (some c, none)) ↔
      dfaReportsSuccess env p rva name = true) := by
  unfold decompile_function_at_address decompPart dfaReportsSuccess
  dsimp only
  repeat' split
  all_goals simp_all

/-- C5: `parse_il2cpp_header` never propagates an exception (it is a total
function into `Bool × List Event`); it returns `False` with no effect on
the data type manager when the header file is missing; it returns `True`
whenever the primary `CParser.parse` call returns, `None` included; and
when the primary parse raises it returns `True` exactly when the
alternative `CParserUtils.parseHeaderFiles` path completes without
raising. -/
theorem claim_C5 (env : Env) :
    (env.headerExists = false → parse_il2cpp_header env = (false, [])) ∧
    (∀ content r, env.headerExists = true → env.headerRead = Except.ok content →
      env.cparse content = Except.ok r → (parse_il2cpp_header env).1 = true) ∧
    (∀ content msg, env.headerExists = true → env.headerRead = Except.ok content →
      env.cparse content = Except.error msg →
      ((parse_il2cpp_header env).1 = true ↔ ∃ u, env.altParse = Except.ok u)) := by
  refine ⟨?_, ?_, ?_⟩
  · intro h
    simp [parse_il2cpp_header, h]
  · intro content r h1 h2 h3
    cases r <;> simp [parse_il2cpp_header, h1, h2, h3]
  · intro content msg h1 h2 h3
    rcases ha : env.altParse with e | u <;>
      simp [parse_il2cpp_header, h1, h2, h3, ha]

/-- C5 witness: the missing-header and clean-parse branches at concrete
environments. -/
theorem claim_C5_witness :
    (envNone.headerExists = false ∧ parse_il2cpp_header envNone = (false, [])) ∧
    (parse_il2cpp_header envParsed).1 = true :=
  ⟨⟨rfl, (claim_C5 envNone).1 rfl⟩,
   (claim_C5 envParsed).2.1 "typedef int t;" none rfl rfl rfl⟩

/-- C6: `apply_il2cpp_symbols` creates labels only for `ScriptMethod`
entries with truthy `Address` and `Name` whose name matches a target
directly or after the `"." → "$$"` replacement, each label placed at
`image_base + Address` under the cleaned name; it returns the number of
`createLabel` calls that did not raise, and `0` when `script.json` is
missing or unreadable. -/
theorem claim_C6 (env : Env) (p : Program) (targets : List (Nat × String)) :
    (apply_il2cpp_symbols env p targets).1 =
      (apply_il2cpp_symbols env p targets).2.2.countP isOkLabel ∧
    (env.scriptJsonExists = false → apply_il2cpp_symbols env p targets = (0, targets, [])) ∧
    (∀ msg, env.scriptJson = Except.error msg → (apply_il2cpp_symbols env p targets).1 = 0) ∧
    (∀ methods, env.scriptJson = Except.ok (some methods) →
      ∀ a lbl ok, Event.createLabel a lbl ok ∈ (apply_il2cpp_symbols env p targets).2.2 →
        ∃ m ∈ methods, ∃ ad n, m.addr = some ad ∧ ad ≠ 0 ∧ m.name = some n ∧ n ≠ "" ∧
          (∃ t ∈ targets, symbolMatches n t.2 = true) ∧
          a = p.imageBase + ad ∧ lbl = cleanLabel n) := by
  refine ⟨?_, ?_, ?_, ?_⟩
  · unfold apply_il2cpp_symbols
    repeat' split
    · simp
    · simp [isOkLabel, List.countP, List.countP.go]
    · simp [isOkLabel, List.countP, List.countP.go]
    · rw [List.countP_cons]
      simp [isOkLabel, applyMethods_count]
  · intro h
    simp [apply_il2cpp_symbols, h]
  · intro msg h
    by_cases he : env.scriptJsonExists = true <;>
      simp [apply_il2cpp_symbols, he, h]
  · intro methods h a lbl ok hmem
    by_cases he : env.scriptJsonExists = true
    case neg => simp [apply_il2cpp_symbols, he] at hmem
    case pos =>
      simp only [apply_il2cpp_symbols, he, Bool.not_true, Bool.false_eq_true,
        if_false, h] at hmem
      rcases List.mem_cons.1 hmem with heq | hmem
      · exact absurd heq (by simp)
      · obtain ⟨m, hm, ad, n, h1, h2, h3, h4, ⟨ok2, hx⟩, t, ht, hmt⟩ :=
          applyMethods_events env p targets methods _ hmem
        injection hx with ha hl hok
        exact ⟨m, hm, ad, n, h1, h2, h3, h4, ⟨t, ht, hmt⟩, ha, hl⟩

/-- C6 witness: the missing-file branch at a concrete environment. -/
theorem claim_C6_witness :
    envNone.scriptJsonExists = false ∧
      apply_il2cpp_symbols envNone prog0 [] = (0, [], []) :=
  ⟨rfl, (claim_C6 envNone prog0 []).2.1 rfl⟩

/-- C10: with no program loaded, both `run()`s return immediately with no
side effect beyond console printing: the effect trace is empty, so no
header parse, no label, no decompiler, no file write. -/
theorem claim_C10 (env : Env) (h : env.program = none) :
    Magic.run env = (none, []) ∧ Pathfinding.run env = (none, []) := by
  constructor <;> simp [Magic.run, Pathfinding.run, h]

/-- C10 witness at a concrete program-less environment. -/
theorem claim_C10_witness :
    envNone.program = none ∧
      Magic.run envNone = (none, []) ∧ Pathfinding.run envNone = (none, []) :=
  ⟨rfl, claim_C10 envNone rfl⟩

/-- In a duplicate-free list, each member is counted once. -/
theorem countP_eq_one_of_nodup [DecidableEq α] :
    ∀ l : List α, l.Nodup → ∀ a ∈ l, l.countP (fun x => decide (x = a)) = 1 := by
  intro l
  induction l with
  | nil => intro _ a ha; cases ha
  | cons b t ih =>
    intro h a ha
    rw [List.countP_cons]
    by_cases he : b = a
    · subst he
      have hb : b ∉ t := (List.nodup_cons.1 h).1
      have hz : t.countP (fun x => decide (x = b)) = 0 := by
        refine List.countP_eq_zero.2 ?_
        intro x hx hpx
        rw [decide_eq_true_eq] at hpx
        exact hb (hpx ▸ hx)
      simp [hz]
    · have ha' : a ∈ t := by
        rcases List.mem_cons.1 ha with h1 | h1
        · exact absurd h1.symm he
        · exact h1
      rw [ih (List.nodup_cons.1 h).2 a ha']
      simp [he]

/-- The magic sort is a permutation of the table. -/
theorem magic_sorted_perm : Magic.sortedTargets.Perm Magic.TARGET_FUNCTIONS_RVA :=
  sortBy_perm _ _

/-- The pathfinding sort is a permutation of the table. -/
theorem path_sorted_perm :
    Pathfinding.sortedTargets.Perm Pathfinding.TARGET_FUNCTIONS_RVA :=
  sortBy_perm _ _

/-- C1: in both scripts the report lists the blocks in the loop's sorted
order, and in that order entries of the same class (the text before
`"$$"`) are contiguous: collapsing adjacent equal classes leaves no
duplicate, so no block of a different class sits between two blocks of
one class. -/
theorem claim_C1 (env : Env) (p : Program) (h : env.program = some p) :
    (∃ d, (Magic.run env).1 = some d ∧
      d.resultsLines =
        Magic.preamble p d.typesParsed ++ magicBlocks env p "" Magic.sortedTargets) ∧
    (collapseAdj (Magic.sortedTargets.map (fun e => className e.2))).Nodup ∧
    (∃ d, (Pathfinding.run env).1 = some d ∧
      d.resultsLines =
        Pathfinding.preamble p d.typesParsed ++
          pathBlocks env p Pathfinding.sortedTargets) ∧
    (collapseAdj (Pathfinding.sortedTargets.map (fun e => className e.2))).Nodup := by
  refine ⟨?_, nodupB_nodup _ (by decide), ?_, nodupB_nodup _ (by decide)⟩
  · rw [magic_run_char env p h]
    exact ⟨_, rfl, rfl⟩
  · rw [path_run_char env p h]
    exact ⟨_, rfl, rfl⟩

/-- C1 witness at a concrete loaded environment. -/
theorem claim_C1_witness :
    envLoaded.program = some prog0 ∧
      ∃ d, (Magic.run envLoaded).1 = some d ∧
        d.resultsLines =
          Magic.preamble prog0 d.typesParsed ++
            magicBlocks envLoaded prog0 "" Magic.sortedTargets :=
  ⟨rfl, (claim_C1 envLoaded prog0 rfl).1⟩

/-- C2: each `run()` is phased: all parse events, then all symbol events,
then the decompiler opening, then all loop events, then the write events,
then the dispose; the write phase completes at most one write, and every
table entry's decompilation request lies in the loop phase, before any
write. -/
theorem claim_C2 (env : Env) (p : Program) (h : env.program = some p) :
    (∃ e1 e2 e3 e4, (Magic.run env).2 =
        e1 ++ e2 ++ [Event.openDecompiler] ++ e3 ++ e4 ++ [Event.dispose] ∧
      (∀ x ∈ e1, isParseEvt x = true) ∧
      (∀ x ∈ e2, isSymbolEvt x = true) ∧
      (∀ x ∈ e3, isDecompEvt x = true) ∧
      (∀ x ∈ e4, isWriteEvt x = true) ∧
      e4.countP isOkWrite ≤ 1 ∧
      (∀ t ∈ Magic.TARGET_FUNCTIONS_RVA, Event.decompRequest t.1 t.2 ∈ e3)) ∧
    (∃ e1 e2 e3 e4, (Pathfinding.run env).2 =
        e1 ++ e2 ++ [Event.openDecompiler] ++ e3 ++ e4 ++ [Event.dispose] ∧
      (∀ x ∈ e1, isParseEvt x = true) ∧
      (∀ x ∈ e2, isSymbolEvt x = true) ∧
      (∀ x ∈ e3, isDecompEvt x = true) ∧
      (∀ x ∈ e4, isWriteEvt x = true) ∧
      e4.countP isOkWrite ≤ 1 ∧
      (∀ t ∈ Pathfinding.TARGET_FUNCTIONS_RVA, Event.decompRequest t.1 t.2 ∈ e3)) := by
  constructor
  · refine ⟨(parse_il2cpp_header env).2,
      (apply_il2cpp_symbols env p Magic.TARGET_FUNCTIONS_RVA).2.2,
      loopEvents env p Magic.sortedTargets,
      writeEvents env Magic.OUTPUT_PATH (String.intercalate "\n"
        (Magic.preamble p (parse_il2cpp_header env).1 ++
          magicBlocks env p "" Magic.sortedTargets)),
      by rw [magic_run_char env p h],
      parse_isParseEvt env,
      apply_isSymbolEvt env p _,
      loopEvents_kind env p _,
      (writeEvents_kind env _ _).1,
      (writeEvents_kind env _ _).2, ?_⟩
    intro t ht
    have hmem : t ∈ Magic.sortedTargets := (sortBy_perm _ _).mem_iff.2 ht
    simp only [loopEvents]
    exact List.mem_flatMap.2 ⟨t, hmem, List.mem_cons_self _ _⟩
  · refine ⟨(parse_il2cpp_header env).2,
      (apply_il2cpp_symbols env p Pathfinding.TARGET_FUNCTIONS_RVA).2.2,
      loopEvents env p Pathfinding.sortedTargets,
      writeEvents env Pathfinding.OUTPUT_PATH (String.intercalate "\n"
        (Pathfinding.preamble p (parse_il2cpp_header env).1 ++
          pathBlocks env p Pathfinding.sortedTargets)),
      by rw [path_run_char env p h],
      parse_isParseEvt env,
      apply_isSymbolEvt env p _,
      loopEvents_kind env p _,
      (writeEvents_kind env _ _).1,
      (writeEvents_kind env _ _).2, ?_⟩
    intro t ht
    have hmem : t ∈ Pathfinding.sortedTargets := (sortBy_perm _ _).mem_iff.2 ht
    simp only [loopEvents]
    exact List.mem_flatMap.2 ⟨t, hmem, List.mem_cons_self _ _⟩

/-- C2 witness at a concrete loaded environment. -/
theorem claim_C2_witness :
    envLoaded.program = some prog0 ∧
      ∃ e1 e2 e3 e4, (Magic.run envLoaded).2 =
        e1 ++ e2 ++ [Event.openDecompiler] ++ e3 ++ e4 ++ [Event.dispose] ∧
        e4.countP isOkWrite ≤ 1 := by
  obtain ⟨e1, e2, e3, e4, h1, _, _, _, _, h6, _⟩ :=
    (claim_C2 envLoaded prog0 rfl).1
  exact ⟨rfl, e1, e2, e3, e4, h1, h6⟩

/-- C3: in each run the decompilation requests, in order, are exactly the
sorted target table — one request per table entry, none besides — and
every call into the host decompiler targets `image_base + rva` of a table
entry. -/
theorem claim_C3 (env : Env) (p : Program) (h : env.program = some p) :
    (((Magic.run env).2.filterMap requestOf).Perm Magic.TARGET_FUNCTIONS_RVA ∧
      (∀ t ∈ Magic.TARGET_FUNCTIONS_RVA,
        ((Magic.run env).2.filterMap requestOf).countP (fun x => decide (x = t)) = 1) ∧
      ∀ a, Event.decompileFunction a ∈ (Magic.run env).2 →
        ∃ t ∈ Magic.TARGET_FUNCTIONS_RVA, a = p.imageBase + t.1) ∧
    (((Pathfinding.run env).2.filterMap requestOf).Perm Pathfinding.TARGET_FUNCTIONS_RVA ∧
      (∀ t ∈ Pathfinding.TARGET_FUNCTIONS_RVA,
        ((Pathfinding.run env).2.filterMap requestOf).countP (fun x => decide (x = t)) = 1) ∧
      ∀ a, Event.decompileFunction a ∈ (Pathfinding.run env).2 →
        ∃ t ∈ Pathfinding.TARGET_FUNCTIONS_RVA, a = p.imageBase + t.1) := by
  have hm : (Magic.run env).2.filterMap requestOf = Magic.sortedTargets := by
    rw [magic_run_char env p h]
    simp only [List.filterMap_append]
    rw [List.filterMap_eq_nil.2
          (fun x hx => requestOf_none_of_parse x (parse_isParseEvt env x hx)),
        List.filterMap_eq_nil.2
          (fun x hx => requestOf_none_of_symbol x (apply_isSymbolEvt env p _ x hx)),
        loopEvents_requests env p,
        List.filterMap_eq_nil.2
          (fun x hx => requestOf_none_of_write x ((writeEvents_kind env _ _).1 x hx))]
    simp [requestOf]
  have hp : (Pathfinding.run env).2.filterMap requestOf = Pathfinding.sortedTargets := by
    rw [path_run_char env p h]
    simp only [List.filterMap_append]
    rw [List.filterMap_eq_nil.2
          (fun x hx => requestOf_none_of_parse x (parse_isParseEvt env x hx)),
        List.filterMap_eq_nil.2
          (fun x hx => requestOf_none_of_symbol x (apply_isSymbolEvt env p _ x hx)),
        loopEvents_requests env p,
        List.filterMap_eq_nil.2
          (fun x hx => requestOf_none_of_write x ((writeEvents_kind env _ _).1 x hx))]
    simp [requestOf]
  refine ⟨⟨?_, ?_, ?_⟩, ?_, ?_, ?_⟩
  · rw [hm]; exact sortBy_perm _ _
  · intro t ht
    rw [hm, magic_sorted_perm.countP_eq]
    exact countP_eq_one_of_nodup _ (nodupB_nodup _ (by decide)) t ht
  · intro a ha
    rw [magic_run_char env p h] at ha
    simp only [List.mem_append, List.mem_singleton] at ha
    rcases ha with ((((ha | ha) | ha) | ha) | ha) | ha
    · exact absurd (parse_isParseEvt env _ ha) (by simp [isParseEvt])
    · exact absurd (apply_isSymbolEvt env p _ _ ha) (by simp [isSymbolEvt])
    · exact absurd ha (by simp)
    · obtain ⟨t, ht, h'⟩ := loopEvents_decompAddr env p _ a ha
      exact ⟨t, (sortBy_perm _ _).mem_iff.1 ht, h'⟩
    · exact absurd ((writeEvents_kind env _ _).1 _ ha) (by simp [isWriteEvt])
    · exact absurd ha (by simp)
  · rw [hp]; exact sortBy_perm _ _
  · intro t ht
    rw [hp, path_sorted_perm.countP_eq]
    exact countP_eq_one_of_nodup _ (nodupB_nodup _ (by decide)) t ht
  · intro a ha
    rw [path_run_char env p h] at ha
    simp only [List.mem_append, List.mem_singleton] at ha
    rcases ha with ((((ha | ha) | ha) | ha) | ha) | ha
    · exact absurd (parse_isParseEvt env _ ha) (by simp [isParseEvt])
    · exact absurd (apply_isSymbolEvt env p _ _ ha) (by simp [isSymbolEvt])
    · exact absurd ha (by simp)
    · obtain ⟨t, ht, h'⟩ := loopEvents_decompAddr env p _ a ha
      exact ⟨t, (sortBy_perm _ _).mem_iff.1 ht, h'⟩
    · exact absurd ((writeEvents_kind env _ _).1 _ ha) (by simp [isWriteEvt])
    · exact absurd ha (by simp)

/-- C3 witness at a concrete loaded environment. -/
theorem claim_C3_witness :
    envLoaded.program = some prog0 ∧
      ((Magic.run envLoaded).2.filterMap requestOf).Perm Magic.TARGET_FUNCTIONS_RVA :=
  ⟨rfl, ((claim_C3 envLoaded prog0 rfl).1).1⟩

set_option maxRecDepth 8000 in
/-- C7: in each run the report is the `"\n"`-join of the accumulated
lines, those lines are the preamble followed by exactly one block per
table entry (header comment with name, RVA and absolute address, then the
C code or the `DECOMPILATION FAILED` comment), and the join is what gets
written. -/
theorem claim_C7 (env : Env) (p : Program) (h : env.program = some p) :
    (∃ d, (Magic.run env).1 = some d ∧
      d.resultsLines =
        Magic.preamble p d.typesParsed ++ magicBlocks env p "" Magic.sortedTargets ∧
      d.writtenContent = String.intercalate "\n" d.resultsLines ∧
      (∃ ok, Event.writeFile Magic.OUTPUT_PATH d.writtenContent ok ∈ (Magic.run env).2) ∧
      ∀ t ∈ Magic.TARGET_FUNCTIONS_RVA,
        Magic.sortedTargets.countP (fun x => decide (x = t)) = 1) ∧
    (∃ d, (Pathfinding.run env).1 = some d ∧
      d.resultsLines =
        Pathfinding.preamble p d.typesParsed ++ pathBlocks env p Pathfinding.sortedTargets ∧
      d.writtenContent = String.intercalate "\n" d.resultsLines ∧
      (∃ ok, Event.writeFile Pathfinding.OUTPUT_PATH d.writtenContent ok ∈
        (Pathfinding.run env).2) ∧
      ∀ t ∈ Pathfinding.TARGET_FUNCTIONS_RVA,
        Pathfinding.sortedTargets.countP (fun x => decide (x = t)) = 1) := by
  constructor
  · rw [magic_run_char env p h]
    refine ⟨_, rfl, rfl, rfl, ?_, ?_⟩
    · obtain ⟨ok, hk⟩ := writeEvents_mem env Magic.OUTPUT_PATH
        (String.intercalate "\n" (Magic.preamble p (parse_il2cpp_header env).1 ++
          magicBlocks env p "" Magic.sortedTargets))
      exact ⟨ok, List.mem_append.2 (Or.inl (List.mem_append.2 (Or.inr hk)))⟩
    · intro t ht
      rw [magic_sorted_perm.countP_eq]
      exact countP_eq_one_of_nodup _ (nodupB_nodup _ (by decide)) t ht
  · rw [path_run_char env p h]
    refine ⟨_, rfl, rfl, rfl, ?_, ?_⟩
    · obtain ⟨ok, hk⟩ := writeEvents_mem env Pathfinding.OUTPUT_PATH
        (String.intercalate "\n" (Pathfinding.preamble p (parse_il2cpp_header env).1 ++
          pathBlocks env p Pathfinding.sortedTargets))
      exact ⟨ok, List.mem_append.2 (Or.inl (List.mem_append.2 (Or.inr hk)))⟩
    · intro t ht
      rw [path_sorted_perm.countP_eq]
      exact countP_eq_one_of_nodup _ (nodupB_nodup _ (by decide)) t ht

/-- C7 witness at a concrete loaded environment. -/
theorem claim_C7_witness :
    envLoaded.program = some prog0 ∧
      ∃ d, (Magic.run envLoaded).1 = some d ∧
        d.resultsLines = Magic.preamble prog0 d.typesParsed ++
          magicBlocks envLoaded prog0 "" Magic.sortedTargets := by
  obtain ⟨d, h1, h2, _⟩ := (claim_C7 envLoaded prog0 rfl).1
  exact ⟨rfl, d, h1, h2⟩

/-- C8: the target table is static: the phases that receive it hand it
back unchanged, the loop consumes a permutation of the literal, and the
final state still carries the literal table. -/
theorem claim_C8 (env : Env) (p : Program) (h : env.program = some p) :
    (apply_il2cpp_symbols env p Magic.TARGET_FUNCTIONS_RVA).2.1 =
        Magic.TARGET_FUNCTIONS_RVA ∧
    (∃ d, (Magic.run env).1 = some d ∧
      d.targetsFinal = Magic.TARGET_FUNCTIONS_RVA) ∧
    Magic.sortedTargets.Perm Magic.TARGET_FUNCTIONS_RVA ∧
    (apply_il2cpp_symbols env p Pathfinding.TARGET_FUNCTIONS_RVA).2.1 =
        Pathfinding.TARGET_FUNCTIONS_RVA ∧
    (∃ d, (Pathfinding.run env).1 = some d ∧
      d.targetsFinal = Pathfinding.TARGET_FUNCTIONS_RVA) ∧
    Pathfinding.sortedTargets.Perm Pathfinding.TARGET_FUNCTIONS_RVA := by
  refine ⟨apply_targets_id env p _, ?_, sortBy_perm _ _,
    apply_targets_id env p _, ?_, sortBy_perm _ _⟩
  · rw [magic_run_char env p h]
    exact ⟨_, rfl, rfl⟩
  · rw [path_run_char env p h]
    exact ⟨_, rfl, rfl⟩

/-- C8 witness at a concrete loaded environment. -/
theorem claim_C8_witness :
    envLoaded.program = some prog0 ∧
      ∃ d, (Magic.run envLoaded).1 = some d ∧
        d.targetsFinal = Magic.TARGET_FUNCTIONS_RVA :=
  ⟨rfl, (claim_C8 envLoaded prog0 rfl).2.1⟩

/-- C9: after the loop the two counters split the table: their sum is the
number of table entries, the success counter counts exactly the entries
whose decompilation returned a truthy code string, the fail counter the
rest. -/
theorem claim_C9 (env : Env) (p : Program) (h : env.program = some p) :
    (∃ d, (Magic.run env).1 = some d ∧
      d.successCount + d.failCount = Magic.TARGET_FUNCTIONS_RVA.length ∧
      d.successCount = Magic.sortedTargets.countP (entrySucceeds env p) ∧
      d.failCount = Magic.sortedTargets.countP (fun e => !entrySucceeds env p e)) ∧
    (∃ d, (Pathfinding.run env).1 = some d ∧
      d.successCount + d.failCount = Pathfinding.TARGET_FUNCTIONS_RVA.length ∧
      d.successCount = Pathfinding.sortedTargets.countP (entrySucceeds env p) ∧
      d.failCount = Pathfinding.sortedTargets.countP (fun e => !entrySucceeds env p e)) := by
  constructor
  · rw [magic_run_char env p h]
    refine ⟨_, rfl, ?_, rfl, rfl⟩
    show Magic.sortedTargets.countP (entrySucceeds env p) +
      Magic.sortedTargets.countP (fun e => !entrySucceeds env p e) = _
    rw [countP_add_countP_not]
    exact (sortBy_perm _ _).length_eq
  · rw [path_run_char env p h]
    refine ⟨_, rfl, ?_, rfl, rfl⟩
    show Pathfinding.sortedTargets.countP (entrySucceeds env p) +
      Pathfinding.sortedTargets.countP (fun e => !entrySucceeds env p e) = _
    rw [countP_add_countP_not]
    exact (sortBy_perm _ _).length_eq

/-- C9 witness at a concrete loaded environment. -/
theorem claim_C9_witness :
    envLoaded.program = some prog0 ∧
      ∃ d, (Magic.run envLoaded).1 = some d ∧
        d.successCount + d.failCount = Magic.TARGET_FUNCTIONS_RVA.length := by
  obtain ⟨d, h1, h2, _⟩ := (claim_C9 envLoaded prog0 rfl).1
  exact ⟨rfl, d, h1, h2⟩

end FF3
